import Mathlib

/-!
# NASSAVx status client (`static/js/script.js`)

A shallow embedding of the page controller: the four `fetch`-based actions
(`addTask`, `stopTask`, `clearFailedTasks`, `updateStatus`) and the two
rendering routines (`updateList`, `updateLogs`), followed by the properties
proved about them.

The browser is modelled as a `World` (bound DOM elements, the requests sent,
the dialogs shown, the console). What the environment decides (the answer to
`confirm`, the outcome of each `fetch`) is an argument of the action.
-/

namespace NASSAVx

/-! ## JavaScript strings -/

/-- Code points stripped by `String.prototype.trim`: ECMAScript `WhiteSpace`
(TAB, VT, FF, ZWNBSP and the Unicode space separators) and `LineTerminator`
(LF, CR, LS, PS). -/
def isJsWhitespace (c : Char) : Bool :=
  let n := c.toNat
  n == 0x09 || n == 0x0A || n == 0x0B || n == 0x0C || n == 0x0D || n == 0x20 ||
  n == 0xA0 || n == 0x1680 || (0x2000 ≤ n && n ≤ 0x200A) || n == 0x2028 ||
  n == 0x2029 || n == 0x202F || n == 0x205F || n == 0x3000 || n == 0xFEFF

/-- `String.prototype.trim`: drop leading and trailing white space. -/
def jsTrim (s : String) : String :=
  ⟨((s.data.dropWhile isJsWhitespace).reverse.dropWhile isJsWhitespace).reverse⟩

/-- Substring search on character lists: does `pat` occur in `hay`? -/
def includesChars : List Char → List Char → Bool
  | [], pat => pat.isPrefixOf []
  | h :: hs, pat => pat.isPrefixOf (h :: hs) || includesChars hs pat

/-- `String.prototype.includes(pat)`. -/
def jsIncludes (s pat : String) : Bool :=
  includesChars s.data pat.data

/-- The `length` of a string: its number of UTF-16 code units. -/
def utf16Length (s : String) : Nat :=
  (s.data.map (fun c => if c.toNat < 0x10000 then 1 else 2)).sum

/-! ## JavaScript values -/

/-- A JavaScript number as this script observes it. The IEEE-754 value itself
is not modelled; the script only tests a number for zero (truthiness,
`=== 0`), compares it with zero (`> 0`) and converts it to a string. -/
structure JNumber where
  isZero : Bool
  isPos : Bool
  text : String

/-- The number value of a length. -/
def JNumber.ofNat (n : Nat) : JNumber :=
  ⟨n == 0, decide (0 < n), toString n⟩

/-- A thrown error object (`name` and `message` of an `Error`). -/
structure JSError where
  name : String
  message : String
deriving DecidableEq

/-- `Error.prototype.toString`, which string concatenation applies to a caught
error. -/
def JSError.toString (e : JSError) : String :=
  if e.name = "" then e.message
  else if e.message = "" then e.name
  else e.name ++ ": " ++ e.message

/-- A `TypeError` raised by the engine. The wording of the message differs
between engines; nothing proved below depends on it. -/
def typeError (message : String) : JSError :=
  ⟨"TypeError", message⟩

/-- Values the script handles: what `JSON.parse` produces, and `undefined`
(the result of reading a property that is not there). An object is the list of
its own properties, each key occurring once. -/
inductive JSVal where
  | undefined
  | null
  | bool (b : Bool)
  | num (n : JNumber)
  | str (s : String)
  | arr (items : List JSVal)
  | obj (props : List (String × JSVal))

/-- The part of the engine left abstract: whether `ToNumber` of a string is a
number greater than zero (decimal-to-double conversion). Only a comparison
`x > 0` on a non-numeric `x` consults it. -/
structure Engine where
  stringGtZero : String → Bool

namespace JSVal

/-- `ToBoolean`. -/
def truthy : JSVal → Bool
  | undefined => false
  | null => false
  | bool b => b
  | num n => !n.isZero
  | str s => s != ""
  | arr _ => true
  | obj _ => true

/-- Own-property lookup in a parsed object. -/
def lookup (props : List (String × JSVal)) (key : String) : Option JSVal :=
  (props.find? (fun p => p.1 == key)).map (fun p => p.2)

end JSVal

namespace JSVal

/-- Is the value `null` or `undefined`? -/
def isNullish : JSVal → Bool
  | undefined => true
  | null => true
  | _ => false

mutual
/-- `ToString`. A parsed object has no callable own property, so an own
`toString` key hides `Object.prototype.toString` and the conversion throws;
otherwise the result is `[object Object]`. An array is joined with commas. -/
def toStr : JSVal → Except JSError String
  | undefined => .ok "undefined"
  | null => .ok "null"
  | bool b => .ok (if b then "true" else "false")
  | num n => .ok n.text
  | str s => .ok s
  | arr items => joinItems items
  | obj props =>
    if props.any (fun p => p.1 == "toString") then
      .error (typeError "Cannot convert object to primitive value")
    else .ok "[object Object]"
termination_by structural v => v
/-- `Array.prototype.join` with the default separator: `null` and `undefined`
elements give the empty string. -/
def joinItems : List JSVal → Except JSError String
  | [] => .ok ""
  | x :: rest =>
    match (if x.isNullish then .ok "" else toStr x) with
    | .error e => .error e
    | .ok a =>
      match rest with
      | [] => .ok a
      | _ :: _ =>
        match joinItems rest with
        | .error e => .error e
        | .ok b => .ok (a ++ "," ++ b)
termination_by structural l => l
end

/-- Property read `v.name`, for the names this script reads: `length` and the
JSON field names, none of which a built-in prototype defines apart from
`length` on strings and arrays. Reading from `null` or `undefined` throws. -/
def getProp (v : JSVal) (name : String) : Except JSError JSVal :=
  match v with
  | undefined => .error (typeError ("Cannot read properties of undefined (reading " ++ name ++ ")"))
  | null => .error (typeError ("Cannot read properties of null (reading " ++ name ++ ")"))
  | bool _ => .ok undefined
  | num _ => .ok undefined
  | str s => if name = "length" then .ok (num (JNumber.ofNat (utf16Length s))) else .ok undefined
  | arr items => if name = "length" then .ok (num (JNumber.ofNat items.length)) else .ok undefined
  | obj props => .ok ((lookup props name).getD undefined)

/-- The comparison `v === 0`. -/
def strictEqZero : JSVal → Bool
  | num n => n.isZero
  | _ => false

/-- The comparison `v > 0`: `ToPrimitive` with hint number, then `ToNumber`.
`undefined` is `NaN`, `null` is `0`, `true` is `1`; an array or object goes
through its string conversion, and `[object Object]` is `NaN`. -/
def gtZero (stringGtZero : String → Bool) : JSVal → Except JSError Bool
  | undefined => .ok false
  | null => .ok false
  | bool b => .ok b
  | num n => .ok n.isPos
  | str s => .ok (stringGtZero s)
  | arr items =>
    match toStr (arr items) with
    | .error e => .error e
    | .ok s => .ok (stringGtZero s)
  | obj props =>
    match toStr (obj props) with
    | .error e => .error e
    | .ok _ => .ok false

/-- The method call `v.includes(pat)` with a string argument:
`String.prototype.includes` on a string, `Array.prototype.includes` on an
array (an element matches when it is that very string); any other receiver
has no callable `includes`. -/
def includes (v : JSVal) (pat : String) : Except JSError Bool :=
  match v with
  | str s => .ok (jsIncludes s pat)
  | arr items => .ok (items.any (fun x => match x with
      | str s => s == pat
      | _ => false))
  | undefined => .error (typeError "Cannot read properties of undefined (reading includes)")
  | null => .error (typeError "Cannot read properties of null (reading includes)")
  | _ => .error (typeError "log.includes is not a function")

end JSVal

/-! ## The page -/

/-- A node inside a rendered container. -/
inductive Node where
  | text (data : String)
  | element (tag : String) (className : String) (children : List Node)

/-- Effect of assigning `textContent`: all children are replaced by one text
node, or by nothing when the string is empty. -/
def textNodes (s : String) : List Node :=
  if s = "" then [] else [Node.text s]

/-- An element the script looks up by id, with the properties it reads or
writes. `scrollHeight` is maintained by layout, which is not modelled. -/
structure Element where
  className : String
  value : String
  disabled : Bool
  children : List Node
  scrollTop : Nat
  scrollHeight : Nat

/-- The document, as `document.getElementById` sees it: `none` is `null`. The
elements the script binds are taken to be distinct and not nested in one
another. -/
abbrev Dom := String → Option Element

/-- An HTTP request passed to `fetch`. -/
structure Request where
  method : String
  url : String
  headers : List (String × String)
  body : Option String
deriving DecidableEq

/-- A response as the script reads it: the status code and what
`response.json()` settles to (a parsed value, or the rejection reason). -/
structure Response where
  status : Nat
  json : Except JSError JSVal

/-- The flag `response.ok`: the status is in the range 200 to 299. -/
def Response.ok (r : Response) : Bool :=
  200 ≤ r.status && r.status ≤ 299

/-- How a `fetch` settles: rejected (network failure) or resolved with a
response. -/
inductive FetchOutcome where
  | rejected (reason : JSError)
  | resolved (response : Response)

/-- Everything the script can observe or affect. Lists grow at the end. -/
structure World where
  dom : Dom
  requests : List Request
  alerts : List String
  confirms : List String
  console : List (String × JSError)
  stringGtZero : String → Bool

/-- A computation of the script: it transforms the world and either returns a
value or throws. Effects made before a throw stay. -/
def JS (α : Type) : Type := World → World × Except JSError α

namespace JS

instance : Monad JS where
  pure a := fun w => (w, .ok a)
  bind m f := fun w =>
    match m w with
    | (w1, .ok a) => f a w1
    | (w1, .error e) => (w1, .error e)

/-- The statement `throw e`. -/
def throw (e : JSError) : JS α := fun w => (w, .error e)

/-- Lift a pure evaluation that may throw. -/
def liftExcept (x : Except JSError α) : JS α := fun w => (w, x)

/-- The statement `try { body } catch (error) { handler }`. -/
def tryCatch (body : JS α) (handler : JSError → JS α) : JS α := fun w =>
  match body w with
  | (w1, .ok a) => (w1, .ok a)
  | (w1, .error e) => handler e w1

/-- Calling an `async` function without awaiting it: the caller gets a
promise and never sees a rejection. The callee is run to completion here,
that is, the world is observed once the call has settled too. -/
def fireAndForget (m : JS Unit) : JS Unit := fun w => ((m w).1, .ok ())

end JS

open JS

/-- Rebinding of one id in the document. -/
def Dom.set (d : Dom) (id : String) (e : Element) : Dom :=
  fun k => if k = id then some e else d k

/-- A property write on `document.getElementById(id)`: a `TypeError` when the
lookup returned `null`. -/
def modifyElement (id : String) (f : Element → Element) : JS Unit := fun w =>
  match w.dom id with
  | none => (w, .error (typeError "Cannot set properties of null"))
  | some e => ({ w with dom := w.dom.set id (f e) }, .ok ())

/-- A property read on `document.getElementById(id)`: a `TypeError` when the
lookup returned `null`. -/
def readElement (id : String) : JS Element := fun w =>
  match w.dom id with
  | none => (w, .error (typeError "Cannot read properties of null"))
  | some e => (w, .ok e)

/-- The call `alert(message)`. -/
def alert (message : String) : JS Unit :=
  fun w => ({ w with alerts := w.alerts ++ [message] }, .ok ())

/-- The call `confirm(message)`; `answer` is what the user chooses. -/
def confirm (message : String) (answer : Bool) : JS Bool :=
  fun w => ({ w with confirms := w.confirms ++ [message] }, .ok answer)

/-- The call `console.error(label, error)`. -/
def consoleError (label : String) (error : JSError) : JS Unit :=
  fun w => ({ w with console := w.console ++ [(label, error)] }, .ok ())

/-- The expression `await fetch(...)`: the request is sent, and the call
throws when the fetch is rejected. -/
def fetch (request : Request) (outcome : FetchOutcome) : JS Response := fun w =>
  let w1 := { w with requests := w.requests ++ [request] }
  match outcome with
  | .rejected reason => (w1, .error reason)
  | .resolved response => (w1, .ok response)

/-- The comparison `v > 0` in the current engine. -/
def gtZero (v : JSVal) : JS Bool :=
  fun w => (w, v.gtZero w.stringGtZero)

/-- The call `items.forEach(callback)` on an array, element by element. -/
def forEachItem (callback : JSVal → JS Unit) : List JSVal → JS Unit
  | [] => pure ()
  | x :: rest => do
    callback x
    forEachItem callback rest

/-- The call `v.forEach(callback)`: only an array has a callable `forEach`. -/
def forEach (v : JSVal) (callback : JSVal → JS Unit) : JS Unit :=
  match v with
  | .arr items => forEachItem callback items
  | _ => JS.throw (typeError "forEach is not a function")

/-! ## `JSON.stringify` of the request body -/

/-- A lower-case hexadecimal digit. -/
def hexDigit (n : Nat) : Char :=
  if n < 10 then Char.ofNat (48 + n) else Char.ofNat (87 + n)

/-- `QuoteJSONString` for one code point: the short escapes, `\uXXXX` for the
other control characters, the character itself otherwise. -/
def quoteJSONChar (c : Char) : List Char :=
  let n := c.toNat
  if n = 0x08 then ['\\', 'b']
  else if n = 0x09 then ['\\', 't']
  else if n = 0x0A then ['\\', 'n']
  else if n = 0x0C then ['\\', 'f']
  else if n = 0x0D then ['\\', 'r']
  else if n = 0x22 then ['\\', '"']
  else if n = 0x5C then ['\\', '\\']
  else if n < 0x20 then ['\\', 'u', '0', '0', hexDigit (n / 16), hexDigit (n % 16)]
  else [c]

/-- `QuoteJSONString`: the JSON string literal for `s`. -/
def quoteJSONString (s : String) : String :=
  ⟨'"' :: (s.data.flatMap quoteJSONChar ++ ['"'])⟩

/-- The text `JSON.stringify({ avid: avid })` for a string `avid`. -/
def stringifyAvid (avid : String) : String :=
  "\x7b\"avid\":" ++ quoteJSONString avid ++ "\x7d"

/-! ## Reading a JSON body back -/

/-- The value of a hexadecimal digit. -/
def hexValue (c : Char) : Option Nat :=
  let n := c.toNat
  if 48 ≤ n ∧ n ≤ 57 then some (n - 48)
  else if 97 ≤ n ∧ n ≤ 102 then some (n - 87)
  else if 65 ≤ n ∧ n ≤ 70 then some (n - 55)
  else none

/-- The character a two-character escape of a JSON string stands for
(RFC 8259, section 7). -/
def simpleEscape (c : Char) : Option Char :=
  if c = '"' then some '"'
  else if c = '\\' then some '\\'
  else if c = '/' then some '/'
  else if c = 'b' then some (Char.ofNat 0x08)
  else if c = 'f' then some (Char.ofNat 0x0C)
  else if c = 'n' then some (Char.ofNat 0x0A)
  else if c = 'r' then some (Char.ofNat 0x0D)
  else if c = 't' then some (Char.ofNat 0x09)
  else none

/-- Where the reader of a JSON string stands: in plain text, after a
backslash, or inside a `\u` escape with `seen` digits read so far. -/
inductive ReadMode where
  | plain
  | escape
  | hex (seen : Nat) (code : Nat)

/-- A reader for the JSON string grammar of RFC 8259, written from the grammar
and not from `quoteJSONString`. Started in plain mode just after the opening
quote, it returns the string denoted up to the closing quote and the text that
follows. Raw control characters are refused, as the grammar demands; escaped
surrogate halves are not read. -/
def readJSONString : ReadMode → List Char → Option (List Char × List Char)
  | _, [] => none
  | .plain, c :: rest =>
    if c = '"' then some ([], rest)
    else if c = '\\' then readJSONString .escape rest
    else if c.toNat < 0x20 then none
    else (readJSONString .plain rest).map (fun r => (c :: r.1, r.2))
  | .escape, c :: rest =>
    if c = 'u' then readJSONString (.hex 0 0) rest
    else
      match simpleEscape c with
      | none => none
      | some d => (readJSONString .plain rest).map (fun r => (d :: r.1, r.2))
  | .hex seen code, c :: rest =>
    match hexValue c with
    | none => none
    | some v =>
      if seen < 3 then readJSONString (.hex (seen + 1) (16 * code + v)) rest
      else if 0xD800 ≤ 16 * code + v ∧ 16 * code + v ≤ 0xDFFF then none
      else (readJSONString .plain rest).map (fun r => (Char.ofNat (16 * code + v) :: r.1, r.2))

/-- The `avid` of a JSON text of the form `{"avid":"..."}`: the text must be an
object with that one member, whose value is a string. -/
def readAvidBody (body : String) : Option String :=
  match body.data with
  | '\x7b' :: '"' :: 'a' :: 'v' :: 'i' :: 'd' :: '"' :: ':' :: '"' :: rest =>
    match readJSONString .plain rest with
    | some (avid, ['\x7d']) => some ⟨avid⟩
    | _ => none
  | _ => none

/-! ## The script -/

/-- The callback that `updateList` passes to `forEach` (lines 126 to 131): one
`li` is created for `item`, given its class and text, and appended. -/
def appendTaskItem (elementId : String) (item : JSVal) : JS Unit := do
  let status ← liftExcept (item.getProp "status")
  let statusText ← liftExcept (if status.truthy then status else JSVal.str "pending").toStr
  let avid ← liftExcept (item.getProp "avid")
  let avidText ← liftExcept avid.toStr
  let message ← liftExcept (item.getProp "message")
  let suffix ← liftExcept (if message.truthy then (message.toStr).map (" - " ++ ·) else .ok "")
  modifyElement elementId (fun el =>
    { el with children := el.children ++
        [Node.element "li" ("task-item status-" ++ statusText) (textNodes (avidText ++ suffix))] })

/-- `function updateList(elementId, items)`. -/
def updateList (elementId : String) (items : JSVal) : JS Unit := do
  modifyElement elementId (fun el => { el with children := [] })
  let length ← liftExcept (items.getProp "length")
  if length.strictEqZero then
    modifyElement elementId (fun el =>
      { el with children := el.children ++ [Node.element "li" "task-item" (textNodes "无任务")] })
  else
    forEach items (appendTaskItem elementId)

/-- The condition `log.includes(a) || log.includes(b)`; the second call is
made only when the first returns false. -/
def includesEither (log : JSVal) (a b : String) : Except JSError Bool :=
  match log.includes a with
  | .error e => .error e
  | .ok true => .ok true
  | .ok false => log.includes b

/-- The severity branch of `updateLogs`: the class name given to the entry of
one log line, `log-entry` extended by the first matching severity. -/
def logClassName (log : JSVal) : Except JSError String := do
  if ← includesEither log "ERROR" "错误" then
    pure ("log-entry" ++ " log-error")
  else if ← includesEither log "WARNING" "警告" then
    pure ("log-entry" ++ " log-warning")
  else if ← includesEither log "DEBUG" "调试" then
    pure ("log-entry" ++ " log-debug")
  else
    pure ("log-entry" ++ " log-info")

/-- The condition `v && v.length > 0`. -/
def hasPositiveLength (v : JSVal) : JS Bool :=
  if v.truthy then do
    let length ← liftExcept (v.getProp "length")
    gtZero length
  else pure false

/-- The callback that `updateLogs` passes to `forEach` (lines 139 to 156): one
`div` is created for `log`, given its class and text, and appended. -/
def appendLogEntry (log : JSVal) : JS Unit := do
  let className ← liftExcept (logClassName log)
  let text ← liftExcept log.toStr
  modifyElement "logContainer" (fun el =>
    { el with children := el.children ++ [Node.element "div" className (textNodes text)] })

/-- `function updateLogs(logs)`. The last branch assigns the placeholder markup
`<div class="log-entry log-info">暂无日志</div>` to `innerHTML`. -/
def updateLogs (logs : JSVal) : JS Unit := do
  modifyElement "logContainer" (fun el => { el with children := [] })
  if ← hasPositiveLength logs then
    forEach logs appendLogEntry
    modifyElement "logContainer" (fun el => { el with scrollTop := el.scrollHeight })
  else
    modifyElement "logContainer" (fun el =>
      { el with children := [Node.element "div" "log-entry log-info" [Node.text "暂无日志"]] })

/-- Lines 76 to 87 of `updateStatus`: the current-task indicator and the stop
button. -/
def renderCurrentTask (data : JSVal) : JS Unit := do
  let currentTask ← liftExcept (data.getProp "current_task")
  if currentTask.truthy then
    let name ← liftExcept currentTask.toStr
    modifyElement "currentTask" (fun el => { el with children := textNodes ("当前任务: " ++ name) })
    modifyElement "currentTask" (fun el => { el with className := "current-task" })
    modifyElement "stopButton" (fun el => { el with disabled := false })
  else
    modifyElement "currentTask" (fun el => { el with children := textNodes "无任务" })
    modifyElement "currentTask" (fun el => { el with className := "" })
    modifyElement "stopButton" (fun el => { el with disabled := true })

/-- Lines 90 to 95 of `updateStatus`: the clear-failed button. -/
def renderClearFailed (data : JSVal) : JS Unit := do
  let failed ← liftExcept (data.getProp "failed")
  if ← hasPositiveLength failed then
    modifyElement "clearFailedBtn" (fun el => { el with disabled := false })
  else
    modifyElement "clearFailedBtn" (fun el => { el with disabled := true })

/-- `async function updateStatus()`; `status` is how `fetch('/status/')`
settles. -/
def updateStatus (status : FetchOutcome) : JS Unit :=
  JS.tryCatch (do
    let response ← fetch ⟨"GET", "/status/", [], none⟩ status
    let data ← liftExcept response.json
    renderCurrentTask data
    renderClearFailed data
    updateList "queueList" (← liftExcept (data.getProp "queue"))
    updateList "completedList" (← liftExcept (data.getProp "completed"))
    updateList "failedList" (← liftExcept (data.getProp "failed"))
    updateLogs (← liftExcept (data.getProp "logs")))
  (fun error => consoleError "更新状态失败:" error)

/-- `async function addTask()`; `post` is how the POST settles and `status`
how the refresh started on success settles. -/
def addTask (post status : FetchOutcome) : JS Unit := do
  let input ← readElement "avidInput"
  let avid := jsTrim input.value
  if avid = "" then
    alert "请输入番号"
  else
    JS.tryCatch (do
      let response ← fetch
        ⟨"POST", "/tasks/", [("Content-Type", "application/json")], some (stringifyAvid avid)⟩ post
      if response.ok then
        modifyElement "avidInput" (fun el => { el with value := "" })
        fireAndForget (updateStatus status)
      else
        let error ← liftExcept response.json
        let detail ← liftExcept (error.getProp "detail")
        let shown ← liftExcept (if detail.truthy then detail else JSVal.str "未知错误").toStr
        alert ("添加任务失败: " ++ shown))
      (fun error => alert ("网络错误: " ++ error.toString))

/-- `async function stopTask()`; `confirmed` is the user's answer to the
confirmation dialog. -/
def stopTask (confirmed : Bool) (post status : FetchOutcome) : JS Unit := do
  if !(← confirm "确定要停止当前任务吗？" confirmed) then
    pure ()
  else
    JS.tryCatch (do
      let response ← fetch ⟨"POST", "/stop/", [], none⟩ post
      if response.ok then
        alert "已发送停止请求"
        fireAndForget (updateStatus status)
      else
        alert "停止请求失败")
      (fun error => alert ("网络错误: " ++ error.toString))

/-- `async function clearFailedTasks()`. -/
def clearFailedTasks (confirmed : Bool) (post status : FetchOutcome) : JS Unit := do
  if !(← confirm "确定要清空所有失败任务吗？此操作不可恢复。" confirmed) then
    pure ()
  else
    JS.tryCatch (do
      let response ← fetch ⟨"POST", "/clear-failed-tasks/", [], none⟩ post
      if response.ok then
        let result ← liftExcept response.json
        let message ← liftExcept (result.getProp "message")
        alert (← liftExcept message.toStr)
        fireAndForget (updateStatus status)
      else
        let error ← liftExcept response.json
        let detail ← liftExcept (error.getProp "detail")
        let shown ← liftExcept (if detail.truthy then detail else JSVal.str "未知错误").toStr
        alert ("清空失败任务失败: " ++ shown))
      (fun error => alert ("网络错误: " ++ error.toString))

/-! ## The data model of the status endpoint -/

/-- An optional string field of a JSON object: left out, `null`, or a string. -/
inductive Field where
  | missing
  | null
  | present (s : String)

namespace Field

/-- The property list contributed by an optional field. -/
def entry (key : String) : Field → List (String × JSVal)
  | missing => []
  | null => [(key, JSVal.null)]
  | present s => [(key, JSVal.str s)]

/-- What reading the field from the parsed object gives. -/
def read : Field → JSVal
  | missing => JSVal.undefined
  | null => JSVal.null
  | present s => JSVal.str s

/-- The string of a field that is present. -/
def value? : Field → Option String
  | present s => some s
  | _ => none

/-- The string of a field that is present and not empty: exactly the fields
JavaScript treats as true. -/
def truthyValue? : Field → Option String
  | present s => if s = "" then none else some s
  | _ => none

end Field

/-- One task of a list: `{ avid, status?, message? }`. -/
structure TaskView where
  avid : String
  status : Field
  message : Field

/-- The parsed JSON of a task. -/
def TaskView.toJS (t : TaskView) : JSVal :=
  JSVal.obj (("avid", JSVal.str t.avid) :: (t.status.entry "status" ++ t.message.entry "message"))

/-- One poll response: `{ current_task?, queue, completed, failed, logs }`. -/
structure StatusSnapshot where
  current_task : Field
  queue : List TaskView
  completed : List TaskView
  failed : List TaskView
  logs : List String

/-- The parsed JSON of a snapshot. -/
def StatusSnapshot.toJS (s : StatusSnapshot) : JSVal :=
  JSVal.obj (s.current_task.entry "current_task" ++
    [("queue", JSVal.arr (s.queue.map TaskView.toJS)),
     ("completed", JSVal.arr (s.completed.map TaskView.toJS)),
     ("failed", JSVal.arr (s.failed.map TaskView.toJS)),
     ("logs", JSVal.arr (s.logs.map JSVal.str))])

/-- The request `fetch('/status/')` sends. -/
def statusRequest : Request :=
  ⟨"GET", "/status/", [], none⟩

/-- The request `addTask` sends for a trimmed input `avid`. -/
def addTaskRequest (avid : String) : Request :=
  ⟨"POST", "/tasks/", [("Content-Type", "application/json")], some (stringifyAvid avid)⟩

/-- A resolved `fetch` with the given status code and a body that parses to
`body`. -/
def jsonResponse (status : Nat) (body : JSVal) : FetchOutcome :=
  .resolved ⟨status, .ok body⟩

/-- The fetch resolved with a 2xx response. -/
def FetchOutcome.isOk : FetchOutcome → Bool
  | .rejected _ => false
  | .resolved response => response.ok

/-! ## What a rendering looks like -/

/-- An item created by `document.createElement(tag)` and given a class name
and a text. -/
def textElement (tag className text : String) : Node :=
  Node.element tag className (textNodes text)

/-- The placeholder item of an empty list. -/
def placeholderItem : Node :=
  textElement "li" "task-item" "无任务"

/-- The list item of a task: the class is derived from the status when it is a
non-empty string and from `pending` otherwise; the text is the avid, followed
by the message when that is a non-empty string. -/
def taskItem (t : TaskView) : Node :=
  textElement "li" ("task-item status-" ++ (t.status.truthyValue?).getD "pending")
    (t.avid ++ match t.message.truthyValue? with
      | some m => " - " ++ m
      | none => "")

/-- The list item as the specification words it: `pending` when the status is
absent, the message suffix when the message is present. -/
def taskItemStated (t : TaskView) : Node :=
  textElement "li" ("task-item status-" ++ (t.status.value?).getD "pending")
    (t.avid ++ match t.message.value? with
      | some m => " - " ++ m
      | none => "")

/-- The children of a list container after rendering `items`. -/
def renderedList (items : List TaskView) : List Node :=
  if items.isEmpty then [placeholderItem] else items.map taskItem

/-- Does `pat` occur in `line`? -/
def Occurs (pat line : String) : Prop :=
  pat.data <:+: line.data

instance (pat line : String) : Decidable (Occurs pat line) := by
  unfold Occurs
  infer_instance

/-- The severity class of a log line, as the specification words it: first
match among error, warning, debug, else info. -/
def severityClass (line : String) : String :=
  if Occurs "ERROR" line ∨ Occurs "错误" line then "log-error"
  else if Occurs "WARNING" line ∨ Occurs "警告" line then "log-warning"
  else if Occurs "DEBUG" line ∨ Occurs "调试" line then "log-debug"
  else "log-info"

/-- The entry of one log line. -/
def logEntry (line : String) : Node :=
  textElement "div" ("log-entry " ++ severityClass line) line

/-- The children of the log panel after rendering `logs`. -/
def renderedLogs (logs : List String) : List Node :=
  if logs.isEmpty then [Node.element "div" "log-entry log-info" [Node.text "暂无日志"]]
  else logs.map logEntry

/-- The state of the bound elements that a rendering determines. -/
structure View where
  currentTaskContent : List Node
  currentTaskClass : String
  stopDisabled : Bool
  clearFailedDisabled : Bool
  queue : List Node
  completed : List Node
  failed : List Node
  logs : List Node

/-- The view a document shows, when all seven rendered elements are bound. -/
def viewOf (d : Dom) : Option View := do
  let currentTask ← d "currentTask"
  let stopButton ← d "stopButton"
  let clearFailedBtn ← d "clearFailedBtn"
  let queueList ← d "queueList"
  let completedList ← d "completedList"
  let failedList ← d "failedList"
  let logContainer ← d "logContainer"
  pure ⟨currentTask.children, currentTask.className, stopButton.disabled, clearFailedBtn.disabled,
    queueList.children, completedList.children, failedList.children, logContainer.children⟩

/-- The view of a snapshot: the indicator and the stop button follow the
truthiness of `current_task`, the clear button the emptiness of `failed`. -/
def snapshotView (s : StatusSnapshot) : View :=
  { currentTaskContent := match s.current_task.truthyValue? with
      | some name => textNodes ("当前任务: " ++ name)
      | none => textNodes "无任务"
    currentTaskClass := match s.current_task.truthyValue? with
      | some _ => "current-task"
      | none => ""
    stopDisabled := (s.current_task.truthyValue?).isNone
    clearFailedDisabled := s.failed.isEmpty
    queue := renderedList s.queue
    completed := renderedList s.completed
    failed := renderedList s.failed
    logs := renderedLogs s.logs }

/-- The document after a snapshot has been rendered over `d`: the closed form
of what `updateStatus` writes. Only the log panel keeps a trace of the
assignment to `scrollTop`, made when there are log lines. -/
def renderDom (s : StatusSnapshot) (d : Dom) : Dom := fun id =>
  if id = "currentTask" then
    (d id).map (fun el =>
      { el with
        children := (snapshotView s).currentTaskContent
        className := (snapshotView s).currentTaskClass })
  else if id = "stopButton" then
    (d id).map (fun el => { el with disabled := (snapshotView s).stopDisabled })
  else if id = "clearFailedBtn" then
    (d id).map (fun el => { el with disabled := (snapshotView s).clearFailedDisabled })
  else if id = "queueList" then
    (d id).map (fun el => { el with children := (snapshotView s).queue })
  else if id = "completedList" then
    (d id).map (fun el => { el with children := (snapshotView s).completed })
  else if id = "failedList" then
    (d id).map (fun el => { el with children := (snapshotView s).failed })
  else if id = "logContainer" then
    (d id).map (fun el =>
      { el with
        children := (snapshotView s).logs
        scrollTop := if s.logs.isEmpty then el.scrollTop else el.scrollHeight })
  else d id

/-- The ids of the elements `updateStatus` writes to. -/
def renderIds : List String :=
  ["currentTask", "stopButton", "clearFailedBtn", "queueList", "completedList", "failedList",
    "logContainer"]

/-- All seven rendered elements are bound in the document. -/
def Bound (d : Dom) : Prop :=
  ∀ id ∈ renderIds, (d id).isSome = true

/-- The world `w2` differs from `w1` at most in the rendered elements. -/
def RenderOnly (w1 w2 : World) : Prop :=
  w2.requests = w1.requests ∧ w2.alerts = w1.alerts ∧ w2.confirms = w1.confirms ∧
  w2.console = w1.console ∧ w2.stringGtZero = w1.stringGtZero ∧
  (∀ id, (w2.dom id).isSome = (w1.dom id).isSome) ∧
  ∀ id, id ∉ renderIds → w2.dom id = w1.dom id

/-- A computation that only renders, from every world. -/
def Renders (m : JS α) : Prop :=
  ∀ w, RenderOnly w (m w).1

/-! ## Sample data -/

/-- An element with nothing set. -/
def blankElement : Element :=
  ⟨"", "", false, [], 0, 0⟩

/-- A page with the eight bound elements, the input holding `inputValue`, and
nothing sent or shown yet. -/
def samplePage (inputValue : String) : World :=
  { dom := fun id =>
      if id = "avidInput" then some { blankElement with value := inputValue }
      else if id ∈ renderIds then some blankElement
      else none
    requests := []
    alerts := []
    confirms := []
    console := []
    stringGtZero := fun _ => false }

/-- A page whose rendered elements still show an older state. -/
def stalePage : World :=
  { samplePage "x" with
    dom := fun id =>
      if id ∈ renderIds then some ⟨"old", "", true, [Node.text "stale"], 3, 7⟩
      else (samplePage "x").dom id }

/-- The scenario of the specification: nothing running, one failed task. -/
def sampleSnapshot : StatusSnapshot :=
  { current_task := .null
    queue := []
    completed := []
    failed := [⟨"ABC-123", .present "failed", .present "404"⟩]
    logs := [] }

/-! # Properties -/

/-! ## Running computations -/

namespace JS

@[simp] theorem pure_apply (a : α) (w : World) : (pure a : JS α) w = (w, .ok a) := rfl

theorem bind_apply (m : JS α) (f : α → JS β) (w : World) :
    (m >>= f) w = match m w with
      | (w1, .ok a) => f a w1
      | (w1, .error e) => (w1, .error e) := rfl

theorem bind_ok {m : JS α} {f : α → JS β} {w w1 : World} {a : α}
    (h : m w = (w1, .ok a)) : (m >>= f) w = f a w1 := by
  simp [bind_apply, h]

theorem bind_error {m : JS α} {f : α → JS β} {w w1 : World} {e : JSError}
    (h : m w = (w1, .error e)) : (m >>= f) w = (w1, .error e) := by
  simp [bind_apply, h]

@[simp] theorem liftExcept_apply (x : Except JSError α) (w : World) :
    liftExcept x w = (w, x) := rfl

@[simp] theorem liftExcept_ok_bind (a : α) (f : α → JS β) (w : World) :
    (liftExcept (.ok a) >>= f) w = f a w := rfl

@[simp] theorem liftExcept_error_bind (e : JSError) (f : α → JS β) (w : World) :
    (liftExcept (.error e : Except JSError α) >>= f) w = (w, .error e) := rfl

end JS

/-! ## Rendering leaves the rest of the world alone -/

theorem renderOnly_refl (w : World) : RenderOnly w w := by
  simp [RenderOnly]

theorem renderOnly_trans {w1 w2 w3 : World} (h12 : RenderOnly w1 w2) (h23 : RenderOnly w2 w3) :
    RenderOnly w1 w3 := by
  obtain ⟨a1, a2, a3, a4, a5, a6, a7⟩ := h12
  obtain ⟨b1, b2, b3, b4, b5, b6, b7⟩ := h23
  refine ⟨b1.trans a1, b2.trans a2, b3.trans a3, b4.trans a4, b5.trans a5, ?_, ?_⟩
  · intro id
    rw [b6, a6]
  · intro id hid
    rw [b7 id hid, a7 id hid]

theorem renders_pure (a : α) : Renders (pure a : JS α) := by
  intro w
  exact renderOnly_refl w

theorem renders_liftExcept (x : Except JSError α) : Renders (JS.liftExcept x) := by
  intro w
  exact renderOnly_refl w

theorem renders_throw (e : JSError) : Renders (JS.throw e : JS α) := by
  intro w
  exact renderOnly_refl w

theorem renders_gtZero (v : JSVal) : Renders (gtZero v) := by
  intro w
  exact renderOnly_refl w

theorem renders_bind {m : JS α} {f : α → JS β} (hm : Renders m) (hf : ∀ a, Renders (f a)) :
    Renders (m >>= f) := by
  intro w
  have h1 := hm w
  rw [JS.bind_apply]
  rcases hmw : m w with ⟨w1, _ | a⟩
  · simpa [hmw] using h1
  · rw [hmw] at h1
    exact renderOnly_trans h1 (hf a w1)

theorem renders_ite {c : Prop} [Decidable c] {m1 m2 : JS α} (h1 : Renders m1)
    (h2 : Renders m2) : Renders (if c then m1 else m2) := by
  split
  · exact h1
  · exact h2

theorem renders_modifyElement {id : String} (hid : id ∈ renderIds) (f : Element → Element) :
    Renders (modifyElement id f) := by
  intro w
  unfold modifyElement
  cases hdom : w.dom id with
  | none => exact renderOnly_refl w
  | some e =>
    refine ⟨rfl, rfl, rfl, rfl, rfl, ?_, ?_⟩
    · intro k
      by_cases hk : k = id
      · simp [Dom.set, hk, hdom]
      · simp [Dom.set, hk]
    · intro k hk
      have hne : k ≠ id := fun h => hk (h ▸ hid)
      simp [Dom.set, hne]

theorem renders_forEachItem {callback : JSVal → JS Unit} (h : ∀ x, Renders (callback x))
    (items : List JSVal) : Renders (forEachItem callback items) := by
  induction items with
  | nil => exact renders_pure ()
  | cons x rest ih => exact renders_bind (h x) (fun _ => ih)

theorem renders_forEach {callback : JSVal → JS Unit} (h : ∀ x, Renders (callback x))
    (v : JSVal) : Renders (forEach v callback) := by
  cases v <;> first
    | exact renders_forEachItem h _
    | exact renders_throw _

theorem renders_appendTaskItem {id : String} (hid : id ∈ renderIds) (item : JSVal) :
    Renders (appendTaskItem id item) := by
  unfold appendTaskItem
  refine renders_bind (renders_liftExcept _) (fun _ => ?_)
  refine renders_bind (renders_liftExcept _) (fun _ => ?_)
  refine renders_bind (renders_liftExcept _) (fun _ => ?_)
  refine renders_bind (renders_liftExcept _) (fun _ => ?_)
  refine renders_bind (renders_liftExcept _) (fun _ => ?_)
  refine renders_bind (renders_liftExcept _) (fun _ => ?_)
  exact renders_modifyElement hid _

theorem renders_updateList {id : String} (hid : id ∈ renderIds) (items : JSVal) :
    Renders (updateList id items) := by
  unfold updateList
  refine renders_bind (renders_modifyElement hid _) (fun _ => ?_)
  refine renders_bind (renders_liftExcept _) (fun length => ?_)
  exact renders_ite (renders_modifyElement hid _)
    (renders_forEach (renders_appendTaskItem hid) _)

theorem renders_hasPositiveLength (v : JSVal) : Renders (hasPositiveLength v) := by
  unfold hasPositiveLength
  exact renders_ite (renders_bind (renders_liftExcept _) (fun _ => renders_gtZero _))
    (renders_pure _)

theorem renders_appendLogEntry (log : JSVal) : Renders (appendLogEntry log) := by
  unfold appendLogEntry
  refine renders_bind (renders_liftExcept _) (fun _ => ?_)
  refine renders_bind (renders_liftExcept _) (fun _ => ?_)
  exact renders_modifyElement (by decide) _

theorem renders_updateLogs (logs : JSVal) : Renders (updateLogs logs) := by
  have hid : "logContainer" ∈ renderIds := by decide
  unfold updateLogs
  refine renders_bind (renders_modifyElement hid _) (fun _ => ?_)
  refine renders_bind (renders_hasPositiveLength _) (fun _ => ?_)
  refine renders_ite ?_ (renders_modifyElement hid _)
  exact renders_bind (renders_forEach renders_appendLogEntry _)
    (fun _ => renders_modifyElement hid _)

theorem renders_renderCurrentTask (data : JSVal) : Renders (renderCurrentTask data) := by
  have h1 : "currentTask" ∈ renderIds := by decide
  have h2 : "stopButton" ∈ renderIds := by decide
  unfold renderCurrentTask
  refine renders_bind (renders_liftExcept _) (fun _ => ?_)
  refine renders_ite ?_ ?_
  · refine renders_bind (renders_liftExcept _) (fun _ => ?_)
    refine renders_bind (renders_modifyElement h1 _) (fun _ => ?_)
    exact renders_bind (renders_modifyElement h1 _) (fun _ => renders_modifyElement h2 _)
  · refine renders_bind (renders_modifyElement h1 _) (fun _ => ?_)
    exact renders_bind (renders_modifyElement h1 _) (fun _ => renders_modifyElement h2 _)

theorem renders_renderClearFailed (data : JSVal) : Renders (renderClearFailed data) := by
  have h1 : "clearFailedBtn" ∈ renderIds := by decide
  unfold renderClearFailed
  refine renders_bind (renders_liftExcept _) (fun _ => ?_)
  refine renders_bind (renders_hasPositiveLength _) (fun _ => ?_)
  exact renders_ite (renders_modifyElement h1 _) (renders_modifyElement h1 _)

/-- What `updateStatus` does after the fetch has resolved only renders. -/
theorem renders_statusBody (response : Response) :
    Renders (do
      let data ← liftExcept response.json
      renderCurrentTask data
      renderClearFailed data
      updateList "queueList" (← liftExcept (data.getProp "queue"))
      updateList "completedList" (← liftExcept (data.getProp "completed"))
      updateList "failedList" (← liftExcept (data.getProp "failed"))
      updateLogs (← liftExcept (data.getProp "logs"))) := by
  refine renders_bind (renders_liftExcept _) (fun data => ?_)
  refine renders_bind (renders_renderCurrentTask _) (fun _ => ?_)
  refine renders_bind (renders_renderClearFailed _) (fun _ => ?_)
  refine renders_bind (renders_liftExcept _) (fun _ => ?_)
  refine renders_bind (renders_updateList (by decide) _) (fun _ => ?_)
  refine renders_bind (renders_liftExcept _) (fun _ => ?_)
  refine renders_bind (renders_updateList (by decide) _) (fun _ => ?_)
  refine renders_bind (renders_liftExcept _) (fun _ => ?_)
  refine renders_bind (renders_updateList (by decide) _) (fun _ => ?_)
  refine renders_bind (renders_liftExcept _) (fun _ => ?_)
  exact renders_updateLogs _

/-- A rendering computation run after a fetch, inside a `try` whose handler
writes to the console. -/
theorem tryCatch_fetch_effects (request : Request) (label : String) (rest : Response → JS Unit)
    (hrest : ∀ r, Renders (rest r)) (status : FetchOutcome) (w : World) :
    (JS.tryCatch (fetch request status >>= rest) (fun error => consoleError label error) w).2
      = .ok () ∧
    (JS.tryCatch (fetch request status >>= rest) (fun error => consoleError label error) w).1.requests
      = w.requests ++ [request] ∧
    (JS.tryCatch (fetch request status >>= rest) (fun error => consoleError label error) w).1.alerts
      = w.alerts ∧
    (JS.tryCatch (fetch request status >>= rest) (fun error => consoleError label error) w).1.confirms
      = w.confirms ∧
    (∀ id, id ∉ renderIds →
      (JS.tryCatch (fetch request status >>= rest) (fun error => consoleError label error) w).1.dom id
        = w.dom id) ∧
    ((JS.tryCatch (fetch request status >>= rest) (fun error => consoleError label error) w).1.console
        = w.console ∨
      ∃ e, (JS.tryCatch (fetch request status >>= rest)
          (fun error => consoleError label error) w).1.console = w.console ++ [(label, e)]) := by
  cases status with
  | rejected reason =>
    simp [JS.tryCatch, JS.bind_apply, fetch, consoleError]
  | resolved response =>
    have h := hrest response { w with requests := w.requests ++ [request] }
    have hrun : (fetch request (.resolved response) >>= rest) w
        = rest response { w with requests := w.requests ++ [request] } := rfl
    unfold JS.tryCatch
    rw [hrun]
    rcases hres : rest response { w with requests := w.requests ++ [request] } with ⟨w1, e | a⟩
    · rw [hres] at h
      obtain ⟨h1, h2, h3, h4, _, _, h7⟩ := h
      simp only at h1 h2 h3 h4 h7
      exact ⟨rfl, h1, h2, h3, h7, Or.inr ⟨e, by simp [consoleError, h4]⟩⟩
    · rw [hres] at h
      obtain ⟨h1, h2, h3, h4, _, _, h7⟩ := h
      simp only at h1 h2 h3 h4 h7
      exact ⟨rfl, h1, h2, h3, h7, Or.inl h4⟩

/-- The outcome of `updateStatus` in general: it returns normally, sends the one
status request, shows no dialog, touches no element other than the rendered
ones, and writes at most one line to the console. -/
theorem updateStatus_effects (status : FetchOutcome) (w : World) :
    (updateStatus status w).2 = .ok () ∧
    (updateStatus status w).1.requests = w.requests ++ [statusRequest] ∧
    (updateStatus status w).1.alerts = w.alerts ∧
    (updateStatus status w).1.confirms = w.confirms ∧
    (∀ id, id ∉ renderIds → (updateStatus status w).1.dom id = w.dom id) ∧
    ((updateStatus status w).1.console = w.console ∨
      ∃ e, (updateStatus status w).1.console = w.console ++ [("更新状态失败:", e)]) :=
  tryCatch_fetch_effects statusRequest "更新状态失败:" _ renders_statusBody status w

/-! ## Claims about `addTask` -/

theorem jsTrim_blank (s : String) (h : ∀ c ∈ s.data, isJsWhitespace c = true) :
    jsTrim s = "" := by
  have h1 : s.data.dropWhile isJsWhitespace = [] := List.dropWhile_eq_nil_iff.mpr h
  simp [jsTrim, h1]

theorem readElement_bound {w : World} {id : String} {el : Element} (h : w.dom id = some el) :
    readElement id w = (w, .ok el) := by
  simp [readElement, h]

theorem modifyElement_bound {w : World} {id : String} {el : Element} (h : w.dom id = some el)
    (f : Element → Element) :
    modifyElement id f w = ({ w with dom := w.dom.set id (f el) }, .ok ()) := by
  simp [modifyElement, h]

/-- C1. When the input field is empty or holds only white space, `addTask`
sends no request, shows the validation message `请输入番号`, and leaves the
input field (and the rest of the page) as it was. -/
theorem addTask_blank_input (w : World) (input : Element) (post status : FetchOutcome)
    (hbound : w.dom "avidInput" = some input)
    (hblank : ∀ c ∈ input.value.data, isJsWhitespace c = true) :
    (addTask post status w).1.requests = w.requests ∧
    (addTask post status w).1.alerts = w.alerts ++ ["请输入番号"] ∧
    (addTask post status w).1.dom = w.dom ∧
    (addTask post status w).2 = .ok () := by
  unfold addTask
  rw [JS.bind_ok (readElement_bound hbound)]
  simp [jsTrim_blank _ hblank, alert]

theorem addTask_blank_input_witness :
    (addTask (.rejected ⟨"TypeError", "Failed to fetch"⟩) (.rejected ⟨"TypeError", "Failed to fetch"⟩)
        (samplePage " \t\n")).1.requests = (samplePage " \t\n").requests ∧
    (addTask (.rejected ⟨"TypeError", "Failed to fetch"⟩) (.rejected ⟨"TypeError", "Failed to fetch"⟩)
        (samplePage " \t\n")).1.alerts = (samplePage " \t\n").alerts ++ ["请输入番号"] ∧
    (addTask (.rejected ⟨"TypeError", "Failed to fetch"⟩) (.rejected ⟨"TypeError", "Failed to fetch"⟩)
        (samplePage " \t\n")).1.dom = (samplePage " \t\n").dom ∧
    (addTask (.rejected ⟨"TypeError", "Failed to fetch"⟩) (.rejected ⟨"TypeError", "Failed to fetch"⟩)
        (samplePage " \t\n")).2 = .ok () :=
  addTask_blank_input (samplePage " \t\n") { blankElement with value := " \t\n" } _ _ rfl
    (by decide)

/-- The run of `addTask` once the input has been read and found non-empty. -/
theorem addTask_nonblank (w : World) (input : Element) (post status : FetchOutcome)
    (hbound : w.dom "avidInput" = some input) (ht : jsTrim input.value ≠ "") :
    addTask post status w =
      JS.tryCatch (do
        let response ← fetch (addTaskRequest (jsTrim input.value)) post
        if response.ok then
          modifyElement "avidInput" (fun el => { el with value := "" })
          fireAndForget (updateStatus status)
        else
          let error ← liftExcept response.json
          let detail ← liftExcept (error.getProp "detail")
          let shown ← liftExcept (if detail.truthy then detail else JSVal.str "未知错误").toStr
          alert ("添加任务失败: " ++ shown))
        (fun error => alert ("网络错误: " ++ error.toString)) w := by
  unfold addTask
  rw [JS.bind_ok (readElement_bound hbound)]
  simp [ht, addTaskRequest]

/-- The run of `addTask` when the POST is answered with a status outside 2xx. -/
theorem addTask_rejected (w : World) (input : Element) (response : Response)
    (status : FetchOutcome) (hbound : w.dom "avidInput" = some input)
    (ht : jsTrim input.value ≠ "") (hnot : response.ok = false) :
    addTask (.resolved response) status w =
      JS.tryCatch (do
          let error ← liftExcept response.json
          let detail ← liftExcept (error.getProp "detail")
          let shown ← liftExcept (if detail.truthy then detail else JSVal.str "未知错误").toStr
          alert ("添加任务失败: " ++ shown))
        (fun error => alert ("网络错误: " ++ error.toString))
        { w with requests := w.requests ++ [addTaskRequest (jsTrim input.value)] } := by
  rw [addTask_nonblank w input _ status hbound ht]
  simp [JS.tryCatch, JS.bind_apply, fetch, hnot]

/-! ## The request body is the JSON text of `{avid}` -/

theorem hexValue_hexDigit (k : Nat) (h : k < 16) : hexValue (hexDigit k) = some k := by
  interval_cases k <;> rfl

theorem char_eq_of_toNat {c : Char} {n : Nat} (h : c.toNat = n) : c = Char.ofNat n := by
  rw [← h, Char.ofNat_toNat]

/-- Reading back the escape of one character yields that character. -/
theorem readJSONString_quoteJSONChar (c : Char) (tail : List Char) :
    readJSONString .plain (quoteJSONChar c ++ tail)
      = (readJSONString .plain tail).map (fun r => (c :: r.1, r.2)) := by
  unfold quoteJSONChar
  simp only []
  split_ifs with h1 h2 h3 h4 h5 h6 h7 h8
  · have hc := char_eq_of_toNat h1
    subst hc
    rfl
  · have hc := char_eq_of_toNat h2
    subst hc
    rfl
  · have hc := char_eq_of_toNat h3
    subst hc
    rfl
  · have hc := char_eq_of_toNat h4
    subst hc
    rfl
  · have hc := char_eq_of_toNat h5
    subst hc
    rfl
  · have hc := char_eq_of_toNat h6
    subst hc
    rfl
  · have hc := char_eq_of_toNat h7
    subst hc
    rfl
  · have hd1 : hexValue (hexDigit (c.toNat / 16)) = some (c.toNat / 16) :=
      hexValue_hexDigit _ (by omega)
    have hd2 : hexValue (hexDigit (c.toNat % 16)) = some (c.toNat % 16) :=
      hexValue_hexDigit _ (by omega)
    have hz : hexValue '0' = some 0 := rfl
    have hcode : 16 * (16 * (16 * (16 * 0 + 0) + 0) + c.toNat / 16) + c.toNat % 16 = c.toNat := by
      omega
    have hbs : ('\\' : Char) ≠ '"' := by decide
    have hu : ('u' : Char) = 'u' := rfl
    simp only [List.cons_append, List.nil_append, readJSONString, hbs, if_false, if_true, hz,
      hd1, hd2, hcode, Char.ofNat_toNat]
    have hns : ¬ (0xD800 ≤ c.toNat ∧ c.toNat ≤ 0xDFFF) := by omega
    simp [hns]
  · have hq : c ≠ '"' := by
      intro h
      subst h
      exact h6 rfl
    have hb : c ≠ '\\' := by
      intro h
      subst h
      exact h7 rfl
    simp only [List.cons_append, List.nil_append, readJSONString, hq, hb, h8, if_false]
    rfl

/-- Reading back a quoted string yields the string and what follows it. -/
theorem readJSONString_quoted (chars rest : List Char) :
    readJSONString .plain (chars.flatMap quoteJSONChar ++ '"' :: rest) = some (chars, rest) := by
  induction chars with
  | nil => simp [readJSONString]
  | cons c cs ih =>
    rw [List.flatMap_cons, List.append_assoc, readJSONString_quoteJSONChar, ih]
    rfl

/-- The text `JSON.stringify({ avid: avid })` denotes the object whose one
member `avid` is the string `avid`. -/
theorem readAvidBody_stringifyAvid (avid : String) :
    readAvidBody (stringifyAvid avid) = some avid := by
  have hdata : (stringifyAvid avid).data
      = '\x7b' :: '"' :: 'a' :: 'v' :: 'i' :: 'd' :: '"' :: ':' :: '"' ::
          (avid.data.flatMap quoteJSONChar ++ '"' :: ['\x7d']) := by
    simp [stringifyAvid, quoteJSONString, String.data_append]
  unfold readAvidBody
  rw [hdata]
  simp only [readJSONString_quoted]

/-- The requests of `addTask` on a non-empty trimmed input, and the input field
after a 2xx answer. -/
theorem addTask_requests (w : World) (input : Element) (post status : FetchOutcome)
    (hbound : w.dom "avidInput" = some input) (ht : jsTrim input.value ≠ "") :
    (addTask post status w).1.requests =
      w.requests ++ addTaskRequest (jsTrim input.value) ::
        (if post.isOk then [statusRequest] else []) ∧
    (post.isOk = true →
      (addTask post status w).1.dom "avidInput" = some { input with value := "" }) := by
  cases post with
  | rejected reason =>
    rw [addTask_nonblank w input _ status hbound ht]
    simp [JS.tryCatch, JS.bind_apply, fetch, alert, FetchOutcome.isOk]
  | resolved response =>
    cases hok : response.ok with
    | false =>
      rw [addTask_rejected w input response status hbound ht hok]
      simp only [FetchOutcome.isOk, hok]
      rcases response.json with e | body
      · simp [JS.tryCatch, alert]
      · rcases hd : body.getProp "detail" with e | detail
        · simp [JS.tryCatch, alert, hd]
        · rcases hs : (if detail.truthy then detail else JSVal.str "未知错误").toStr with e | shown
          · simp [JS.tryCatch, alert, hd, hs]
          · simp [JS.tryCatch, alert, hd, hs, JS.bind_apply]
    | true =>
      rw [addTask_nonblank w input _ status hbound ht]
      have h := updateStatus_effects status
        { w with
          dom := w.dom.set "avidInput" { input with value := "" }
          requests := w.requests ++ [addTaskRequest (jsTrim input.value)] }
      obtain ⟨_, hreq, _, _, hdom, _⟩ := h
      have hrun : JS.tryCatch (do
            let response ← fetch (addTaskRequest (jsTrim input.value)) (.resolved response)
            if response.ok then
              modifyElement "avidInput" (fun el => { el with value := "" })
              fireAndForget (updateStatus status)
            else
              let error ← liftExcept response.json
              let detail ← liftExcept (error.getProp "detail")
              let shown ← liftExcept (if detail.truthy then detail else JSVal.str "未知错误").toStr
              alert ("添加任务失败: " ++ shown))
            (fun error => alert ("网络错误: " ++ error.toString)) w
          = ((updateStatus status
              { w with
                dom := w.dom.set "avidInput" { input with value := "" }
                requests := w.requests ++ [addTaskRequest (jsTrim input.value)] }).1, .ok ()) := by
        simp [JS.tryCatch, JS.bind_apply, fetch, hok, modifyElement, hbound, JS.fireAndForget]
      rw [hrun]
      refine ⟨?_, fun _ => ?_⟩
      · simp [FetchOutcome.isOk, hok, hreq]
      · have := hdom "avidInput" (by decide)
        simpa [Dom.set] using this

/-- C2. When the trimmed input `t` is not empty, `addTask` sends exactly one
POST to `/tasks/`, with content type `application/json` and a body that is the
JSON text of the object `{avid: t}`: read back by the JSON string grammar it
gives the trimmed string `t`, not the raw input. The only other request is the
GET of the status refresh after a 2xx answer, and after a 2xx answer the input
field holds the empty string. -/
theorem addTask_sends_trimmed (w : World) (input : Element) (post status : FetchOutcome)
    (hbound : w.dom "avidInput" = some input) (ht : jsTrim input.value ≠ "") :
    ∃ body : String,
      body = stringifyAvid (jsTrim input.value) ∧
      readAvidBody body = some (jsTrim input.value) ∧
      (addTask post status w).1.requests =
        w.requests ++
          ⟨"POST", "/tasks/", [("Content-Type", "application/json")], some body⟩ ::
            (if post.isOk then [⟨"GET", "/status/", [], none⟩] else []) ∧
      (post.isOk = true →
        (addTask post status w).1.dom "avidInput" = some { input with value := "" }) :=
  ⟨stringifyAvid (jsTrim input.value), rfl, readAvidBody_stringifyAvid _,
    (addTask_requests w input post status hbound ht).1,
    (addTask_requests w input post status hbound ht).2⟩

theorem addTask_sends_trimmed_witness :
    (addTask (jsonResponse 201 .null) (.rejected ⟨"TypeError", "Failed to fetch"⟩)
        (samplePage "  ABC-123 ")).1.requests
      = [⟨"POST", "/tasks/", [("Content-Type", "application/json")],
            some "\x7b\"avid\":\"ABC-123\"\x7d"⟩,
          ⟨"GET", "/status/", [], none⟩] ∧
    readAvidBody "\x7b\"avid\":\"ABC-123\"\x7d" = some "ABC-123" ∧
    (addTask (jsonResponse 201 .null) (.rejected ⟨"TypeError", "Failed to fetch"⟩)
        (samplePage "  ABC-123 ")).1.dom "avidInput" = some { blankElement with value := "" } ∧
    (addTask (.rejected ⟨"TypeError", "Failed to fetch"⟩)
        (.rejected ⟨"TypeError", "Failed to fetch"⟩) (samplePage " a\"b\\c\td ")).1.requests
      = [⟨"POST", "/tasks/", [("Content-Type", "application/json")],
            some "\x7b\"avid\":\"a\\\"b\\\\c\\td\"\x7d"⟩] := by
  obtain ⟨body, hbody, hread, hreq, hdom⟩ :=
    addTask_sends_trimmed (samplePage "  ABC-123 ") { blankElement with value := "  ABC-123 " }
      (jsonResponse 201 .null) (.rejected ⟨"TypeError", "Failed to fetch"⟩) rfl (by decide)
  obtain ⟨body2, hbody2, _, hreq2, _⟩ :=
    addTask_sends_trimmed (samplePage " a\"b\\c\td ") { blankElement with value := " a\"b\\c\td " }
      (.rejected ⟨"TypeError", "Failed to fetch"⟩) (.rejected ⟨"TypeError", "Failed to fetch"⟩)
      rfl (by decide)
  subst hbody
  subst hbody2
  exact ⟨hreq, hread, hdom rfl, hreq2⟩

/-- C7, as stated, fails: a 500 answer whose body is not JSON makes
`response.json()` reject, the rejection lands in the `catch` block, and the
user is shown `网络错误: ` followed by the parse error, not
`添加任务失败: 未知错误`. -/
theorem addTask_unparsable_body_counterexample :
    (addTask (.resolved ⟨500, .error ⟨"SyntaxError", "Unexpected token < in JSON at position 0"⟩⟩)
        (.rejected ⟨"TypeError", "Failed to fetch"⟩) (samplePage "ABC-123")).1.alerts
      = ["网络错误: SyntaxError: Unexpected token < in JSON at position 0"] ∧
    (addTask (.resolved ⟨500, .error ⟨"SyntaxError", "Unexpected token < in JSON at position 0"⟩⟩)
        (.rejected ⟨"TypeError", "Failed to fetch"⟩) (samplePage "ABC-123")).1.alerts
      ≠ ["添加任务失败: 未知错误"] := by
  constructor
  · rfl
  · decide

/-- C7, amended. For a non-2xx answer to the POST of `addTask`: when the body
is a JSON object whose `detail` is a non-empty string, the user is shown
`添加任务失败: ` followed by it; when `detail` is absent or falsy (for instance
the empty string), `添加任务失败: 未知错误`; and when the body cannot be parsed as
JSON, `网络错误: ` followed by the parse error. -/
theorem addTask_rejection_alert (w : World) (input : Element) (response : Response)
    (status : FetchOutcome) (hbound : w.dom "avidInput" = some input)
    (ht : jsTrim input.value ≠ "") (hnot : response.ok = false) :
    (∀ props d, response.json = .ok (.obj props) →
      JSVal.lookup props "detail" = some (.str d) → d ≠ "" →
      (addTask (.resolved response) status w).1.alerts = w.alerts ++ ["添加任务失败: " ++ d]) ∧
    (∀ props, response.json = .ok (.obj props) →
      ((JSVal.lookup props "detail").getD .undefined).truthy = false →
      (addTask (.resolved response) status w).1.alerts = w.alerts ++ ["添加任务失败: 未知错误"]) ∧
    (∀ e, response.json = .error e →
      (addTask (.resolved response) status w).1.alerts
        = w.alerts ++ ["网络错误: " ++ e.toString]) := by
  rw [addTask_rejected w input response status hbound ht hnot]
  refine ⟨?_, ?_, ?_⟩
  · intro props d hjson hdetail hd
    simp [JS.tryCatch, JS.bind_apply, alert, hjson, JSVal.getProp, hdetail, JSVal.truthy, hd,
      JSVal.toStr]
  · intro props hjson hfalsy
    simp [JS.tryCatch, JS.bind_apply, alert, hjson, JSVal.getProp, hfalsy, JSVal.toStr]
  · intro e hjson
    simp [JS.tryCatch, alert, hjson]

theorem addTask_rejection_alert_witness :
    (addTask (jsonResponse 400 (.obj [("detail", .str "任务已存在")]))
        (.rejected ⟨"TypeError", "Failed to fetch"⟩) (samplePage "ABC-123")).1.alerts
      = ["添加任务失败: 任务已存在"] ∧
    (addTask (jsonResponse 400 (.obj [("detail", .str "")]))
        (.rejected ⟨"TypeError", "Failed to fetch"⟩) (samplePage "ABC-123")).1.alerts
      = ["添加任务失败: 未知错误"] :=
  ⟨(addTask_rejection_alert (samplePage "ABC-123") { blankElement with value := "ABC-123" }
      ⟨400, .ok (.obj [("detail", .str "任务已存在")])⟩ _ rfl (by decide) rfl).1
        _ _ rfl rfl (by decide),
   (addTask_rejection_alert (samplePage "ABC-123") { blankElement with value := "ABC-123" }
      ⟨400, .ok (.obj [("detail", .str "")])⟩ _ rfl (by decide) rfl).2.1 _ rfl rfl⟩

/-! ## Claims about `updateStatus` failing and about the confirmation gate -/

/-- C9. Whatever the outcome of GET `/status/` (a rejected fetch, a body that is
not JSON, or any parsed value), `updateStatus` returns normally and shows no
alert and no confirmation dialog; the only trace of a failure is one
`console.error` line, which carries the rejection reason when the fetch or the
JSON parsing failed. -/
theorem updateStatus_never_raises (status : FetchOutcome) (w : World) :
    (updateStatus status w).2 = .ok () ∧
    (updateStatus status w).1.alerts = w.alerts ∧
    (updateStatus status w).1.confirms = w.confirms ∧
    ((updateStatus status w).1.console = w.console ∨
      ∃ e, (updateStatus status w).1.console = w.console ++ [("更新状态失败:", e)]) ∧
    (∀ reason, status = .rejected reason →
      (updateStatus status w).1.console = w.console ++ [("更新状态失败:", reason)]) ∧
    (∀ code reason, status = .resolved ⟨code, .error reason⟩ →
      (updateStatus status w).1.console = w.console ++ [("更新状态失败:", reason)]) := by
  obtain ⟨h1, _, h3, h4, _, h6⟩ := updateStatus_effects status w
  refine ⟨h1, h3, h4, h6, ?_, ?_⟩
  · intro reason hs
    subst hs
    simp [updateStatus, JS.tryCatch, JS.bind_apply, fetch, consoleError]
  · intro code reason hs
    subst hs
    simp [updateStatus, JS.tryCatch, JS.bind_apply, fetch, consoleError]

/-- C10. When the user declines the confirmation dialog, `stopTask` and
`clearFailedTasks` return at once: no request is sent, no alert is shown and
the document is unchanged. Hence either function sends a request only when the
user has confirmed. -/
theorem declined_confirmation_is_inert (post status : FetchOutcome) (w : World) :
    (stopTask false post status w).1.requests = w.requests ∧
    (stopTask false post status w).1.alerts = w.alerts ∧
    (stopTask false post status w).1.dom = w.dom ∧
    (stopTask false post status w).2 = .ok () ∧
    (clearFailedTasks false post status w).1.requests = w.requests ∧
    (clearFailedTasks false post status w).1.alerts = w.alerts ∧
    (clearFailedTasks false post status w).1.dom = w.dom ∧
    (clearFailedTasks false post status w).2 = .ok () ∧
    (∀ confirmed, (stopTask confirmed post status w).1.requests ≠ w.requests → confirmed = true) ∧
    (∀ confirmed, (clearFailedTasks confirmed post status w).1.requests ≠ w.requests →
      confirmed = true) := by
  have hstop : stopTask false post status w
      = ({ w with confirms := w.confirms ++ ["确定要停止当前任务吗？"] }, .ok ()) := by
    simp [stopTask, JS.bind_apply, confirm]
  have hclear : clearFailedTasks false post status w
      = ({ w with confirms := w.confirms ++ ["确定要清空所有失败任务吗？此操作不可恢复。"] }, .ok ()) := by
    simp [clearFailedTasks, JS.bind_apply, confirm]
  refine ⟨by rw [hstop], by rw [hstop], by rw [hstop], by rw [hstop], by rw [hclear],
    by rw [hclear], by rw [hclear], by rw [hclear], ?_, ?_⟩
  · intro confirmed hne
    cases confirmed with
    | true => rfl
    | false => exact absurd (by rw [hstop]) hne
  · intro confirmed hne
    cases confirmed with
    | true => rfl
    | false => exact absurd (by rw [hclear]) hne

/-! ## Rendering a list of tasks -/

theorem Dom.set_same (d : Dom) (id : String) (e : Element) : d.set id e id = some e := by
  simp [Dom.set]

theorem Dom.set_set (d : Dom) (id : String) (a b : Element) :
    (d.set id a).set id b = d.set id b := by
  funext k
  by_cases hk : k = id <;> simp [Dom.set, hk]

theorem Dom.set_self {d : Dom} {id : String} {e : Element} (h : d id = some e) :
    d.set id e = d := by
  funext k
  by_cases hk : k = id
  · simp [Dom.set, hk, h]
  · simp [Dom.set, hk]

theorem TaskView.getProp_avid (t : TaskView) : t.toJS.getProp "avid" = .ok (.str t.avid) := by
  simp [TaskView.toJS, JSVal.getProp, JSVal.lookup]

theorem TaskView.getProp_status (t : TaskView) :
    t.toJS.getProp "status" = .ok t.status.read := by
  obtain ⟨avid, status, message⟩ := t
  cases status <;> cases message <;>
    simp [TaskView.toJS, JSVal.getProp, JSVal.lookup, Field.entry, Field.read]

theorem TaskView.getProp_message (t : TaskView) :
    t.toJS.getProp "message" = .ok t.message.read := by
  obtain ⟨avid, status, message⟩ := t
  cases status <;> cases message <;>
    simp [TaskView.toJS, JSVal.getProp, JSVal.lookup, Field.entry, Field.read]

/-- The expression `item.status || 'pending'`, converted to a string. -/
theorem Field.statusText (f : Field) :
    (if f.read.truthy then f.read else JSVal.str "pending").toStr
      = .ok ((f.truthyValue?).getD "pending") := by
  cases f with
  | missing => simp [Field.read, JSVal.truthy, JSVal.toStr, Field.truthyValue?]
  | null => simp [Field.read, JSVal.truthy, JSVal.toStr, Field.truthyValue?]
  | present s =>
    by_cases hs : s = "" <;> simp [Field.read, JSVal.truthy, JSVal.toStr, Field.truthyValue?, hs]

/-- The expression `item.message ? ' - ' + item.message : ''`. -/
theorem Field.messageSuffix (f : Field) :
    (if f.read.truthy then (f.read.toStr).map (" - " ++ ·) else .ok "")
      = .ok (match f.truthyValue? with
        | some m => " - " ++ m
        | none => "") := by
  cases f with
  | missing => simp [Field.read, JSVal.truthy, Field.truthyValue?]
  | null => simp [Field.read, JSVal.truthy, Field.truthyValue?]
  | present s =>
    by_cases hs : s = "" <;>
      simp [Field.read, JSVal.truthy, JSVal.toStr, Field.truthyValue?, hs, Except.map]

/-- The callback of `updateList` on a well-typed task appends its item. -/
theorem appendTaskItem_task (id : String) (t : TaskView) (w : World) (el : Element)
    (h : w.dom id = some el) :
    appendTaskItem id t.toJS w =
      ({ w with dom := w.dom.set id { el with children := el.children ++ [taskItem t] } },
        .ok ()) := by
  unfold appendTaskItem
  simp only [TaskView.getProp_status, TaskView.getProp_avid, TaskView.getProp_message,
    Field.statusText, Field.messageSuffix, JS.liftExcept_ok_bind, JSVal.toStr]
  rw [modifyElement_bound h]
  rfl

theorem forEachItem_tasks (id : String) (items : List TaskView) :
    ∀ (w : World) (el : Element), w.dom id = some el →
      forEachItem (appendTaskItem id) (items.map TaskView.toJS) w =
        ({ w with dom := w.dom.set id { el with children := el.children ++ items.map taskItem } },
          .ok ()) := by
  induction items with
  | nil =>
    intro w el h
    simp [forEachItem, Dom.set_self h]
  | cons t rest ih =>
    intro w el h
    simp only [List.map_cons, forEachItem]
    rw [JS.bind_ok (appendTaskItem_task id t w el h)]
    rw [ih _ _ (Dom.set_same _ _ _)]
    simp [Dom.set_set]

/-- The outcome of `updateList` on a bound container and well-typed tasks. -/
theorem updateList_tasks (id : String) (items : List TaskView) (w : World) (el : Element)
    (h : w.dom id = some el) :
    updateList id (.arr (items.map TaskView.toJS)) w =
      ({ w with dom := w.dom.set id { el with children := renderedList items } }, .ok ()) := by
  unfold updateList
  rw [JS.bind_ok (modifyElement_bound h _)]
  simp only [JSVal.getProp, if_true, JS.liftExcept_ok_bind, JSVal.strictEqZero, JNumber.ofNat,
    List.length_map]
  cases items with
  | nil =>
    simp only [List.length_nil, beq_self_eq_true, if_true]
    rw [modifyElement_bound (Dom.set_same _ _ _)]
    simp [Dom.set_set, renderedList, placeholderItem, textElement]
  | cons t rest =>
    have hne : ((t :: rest).length == 0) = false := by simp
    simp only [hne, forEach, Bool.false_eq_true, if_false]
    have hdom : ({ w with dom := w.dom.set id { el with children := [] } } : World).dom id
        = some { el with children := [] } := Dom.set_same _ _ _
    rw [forEachItem_tasks id (t :: rest) _ _ hdom]
    simp [Dom.set_set, renderedList]

theorem taskItem_eq_stated (t : TaskView) (hs : t.status ≠ .present "")
    (hm : t.message ≠ .present "") : taskItem t = taskItemStated t := by
  obtain ⟨avid, status, message⟩ := t
  have h1 : status.truthyValue? = status.value? := by
    cases status with
    | missing => rfl
    | null => rfl
    | present s =>
      have : s ≠ "" := fun h => hs (by simp [h])
      simp [Field.truthyValue?, Field.value?, this]
  have h2 : message.truthyValue? = message.value? := by
    cases message with
    | missing => rfl
    | null => rfl
    | present s =>
      have : s ≠ "" := fun h => hm (by simp [h])
      simp [Field.truthyValue?, Field.value?, this]
  simp [taskItem, taskItemStated, h1, h2]

/-- C4, as stated, fails: a task whose message is present but empty is rendered
with the bare avid, while the claim gives it the suffix ` - ` and the
message. -/
theorem updateList_empty_message_counterexample :
    (updateList "queueList" (.arr [TaskView.toJS ⟨"ABC-123", .missing, .present ""⟩])
        (samplePage "")).1.dom "queueList"
      = some { blankElement with
          children := [Node.element "li" "task-item status-pending" [Node.text "ABC-123"]] } ∧
    taskItemStated ⟨"ABC-123", .missing, .present ""⟩
      = Node.element "li" "task-item status-pending" [Node.text "ABC-123 - "] := by
  constructor
  · rfl
  · rfl

/-- C4, amended. For a non-empty array of N tasks and a bound container,
`updateList` returns normally and leaves the container with exactly N items in
input order; the i-th has class `task-item status-` followed by the status (by
`pending` when the status is absent or the empty string) and text equal to the
avid, followed by ` - ` and the message exactly when the message is present
and not the empty string. For a task with no empty status or message this is
the item the claim describes. -/
theorem updateList_renders_tasks (w : World) (el : Element) (elementId : String)
    (items : List TaskView) (hbound : w.dom elementId = some el) (hne : items ≠ []) :
    (updateList elementId (.arr (items.map TaskView.toJS)) w).2 = .ok () ∧
    (updateList elementId (.arr (items.map TaskView.toJS)) w).1.dom elementId
      = some { el with children := items.map taskItem } ∧
    (items.map taskItem).length = items.length ∧
    (∀ t ∈ items, t.status ≠ .present "" → t.message ≠ .present "" →
      taskItem t = taskItemStated t) := by
  rw [updateList_tasks elementId items w el hbound]
  refine ⟨rfl, ?_, by simp, fun t _ hs hm => taskItem_eq_stated t hs hm⟩
  cases items with
  | nil => exact absurd rfl hne
  | cons t rest => simp [Dom.set, renderedList]

theorem updateList_renders_tasks_witness :
    (updateList "failedList" (.arr [TaskView.toJS ⟨"ABC-123", .present "failed", .present "404"⟩])
        (samplePage "")).1.dom "failedList"
      = some { blankElement with
          children := [Node.element "li" "task-item status-failed" [Node.text "ABC-123 - 404"]] } :=
  (updateList_renders_tasks (samplePage "") blankElement "failedList"
    [⟨"ABC-123", .present "failed", .present "404"⟩] rfl (by simp)).2.1

/-- C5. Whatever the container and whatever it held before, `updateList` with
an empty array returns normally and leaves the container with exactly one
child, an item of class `task-item` whose text is `无任务`. -/
theorem updateList_empty_placeholder (w : World) (el : Element) (elementId : String)
    (hbound : w.dom elementId = some el) :
    (updateList elementId (.arr []) w).2 = .ok () ∧
    (updateList elementId (.arr []) w).1.dom elementId
      = some { el with children := [Node.element "li" "task-item" [Node.text "无任务"]] } := by
  have h := updateList_tasks elementId [] w el hbound
  simp only [List.map_nil] at h
  rw [h]
  exact ⟨rfl, by simp [Dom.set, renderedList, placeholderItem, textElement, textNodes]⟩

theorem updateList_empty_placeholder_witness :
    (updateList "queueList" (.arr [])
        { samplePage "" with
          dom := (samplePage "").dom.set "queueList"
            { blankElement with children := [Node.text "old", Node.element "li" "x" []] } }).1.dom
        "queueList"
      = some { blankElement with
          children := [Node.element "li" "task-item" [Node.text "无任务"]] } :=
  (updateList_empty_placeholder _ { blankElement with
      children := [Node.text "old", Node.element "li" "x" []] } "queueList" rfl).2

/-! ## Rendering the log panel -/

theorem includesChars_iff (hay pat : List Char) : includesChars hay pat = true ↔ pat <:+: hay := by
  induction hay with
  | nil =>
    cases pat <;> simp [includesChars]
  | cons h hs ih =>
    rw [includesChars, Bool.or_eq_true, ih, List.infix_cons_iff, List.isPrefixOf_iff_prefix]

theorem jsIncludes_iff (line pat : String) : jsIncludes line pat = true ↔ Occurs pat line :=
  includesChars_iff line.data pat.data

theorem includesEither_line (line a b : String) :
    includesEither (.str line) a b = .ok (decide (Occurs a line ∨ Occurs b line)) := by
  unfold includesEither
  simp only [JSVal.includes]
  by_cases ha : Occurs a line
  · have : jsIncludes line a = true := (jsIncludes_iff line a).mpr ha
    simp [this, ha]
  · have h1 : jsIncludes line a = false := by
      rw [← Bool.not_eq_true, jsIncludes_iff]
      exact ha
    simp only [h1, ha, false_or]
    by_cases hb : Occurs b line
    · have : jsIncludes line b = true := (jsIncludes_iff line b).mpr hb
      simp [this, hb]
    · have h2 : jsIncludes line b = false := by
        rw [← Bool.not_eq_true, jsIncludes_iff]
        exact hb
      simp [h2, hb]

/-- The class name the script gives a log line is `log-entry` and the severity
class of the specification. -/
theorem logClassName_line (line : String) :
    logClassName (.str line) = .ok ("log-entry " ++ severityClass line) := by
  unfold logClassName severityClass
  simp only [includesEither_line]
  by_cases h1 : Occurs "ERROR" line ∨ Occurs "错误" line
  · simp only [h1]
    rfl
  · by_cases h2 : Occurs "WARNING" line ∨ Occurs "警告" line
    · simp only [h1, h2]
      rfl
    · by_cases h3 : Occurs "DEBUG" line ∨ Occurs "调试" line
      · simp only [h1, h2, h3]
        rfl
      · simp only [h1, h2, h3]
        rfl

theorem appendLogEntry_line (line : String) (w : World) (el : Element)
    (h : w.dom "logContainer" = some el) :
    appendLogEntry (.str line) w =
      ({ w with
          dom := w.dom.set "logContainer" { el with children := el.children ++ [logEntry line] } },
        .ok ()) := by
  unfold appendLogEntry
  simp only [logClassName_line, JSVal.toStr, JS.liftExcept_ok_bind]
  rw [modifyElement_bound h]
  rfl

theorem forEachItem_lines (lines : List String) :
    ∀ (w : World) (el : Element), w.dom "logContainer" = some el →
      forEachItem appendLogEntry (lines.map JSVal.str) w =
        ({ w with
            dom := w.dom.set "logContainer"
              { el with children := el.children ++ lines.map logEntry } }, .ok ()) := by
  induction lines with
  | nil =>
    intro w el h
    simp [forEachItem, Dom.set_self h]
  | cons line rest ih =>
    intro w el h
    simp only [List.map_cons, forEachItem]
    rw [JS.bind_ok (appendLogEntry_line line w el h)]
    rw [ih _ { el with children := el.children ++ [logEntry line] } (by simp [Dom.set])]
    simp [Dom.set_set]

/-- The condition `v && v.length > 0` on an array tests it for emptiness. -/
theorem hasPositiveLength_arr (items : List JSVal) (w : World) :
    hasPositiveLength (.arr items) w = (w, .ok (!items.isEmpty)) := by
  cases items <;>
    simp [hasPositiveLength, JSVal.truthy, JSVal.getProp, gtZero, JSVal.gtZero, JNumber.ofNat]

/-- The outcome of `updateLogs` on a bound log panel and an array of lines. -/
theorem updateLogs_lines (lines : List String) (w : World) (el : Element)
    (h : w.dom "logContainer" = some el) :
    updateLogs (.arr (lines.map JSVal.str)) w =
      ({ w with
          dom := w.dom.set "logContainer"
            { el with
              children := renderedLogs lines
              scrollTop := if lines.isEmpty then el.scrollTop else el.scrollHeight } },
        .ok ()) := by
  unfold updateLogs
  rw [JS.bind_ok (modifyElement_bound h _)]
  rw [JS.bind_ok (hasPositiveLength_arr _ _)]
  have hdom : ({ w with dom := w.dom.set "logContainer" { el with children := [] } } : World).dom
      "logContainer" = some { el with children := [] } := by simp [Dom.set]
  cases lines with
  | nil =>
    simp only [List.map_nil, List.isEmpty_nil, Bool.not_true, Bool.false_eq_true, if_false]
    rw [modifyElement_bound hdom]
    simp [Dom.set_set, renderedLogs]
  | cons line rest =>
    simp only [List.map_cons, List.isEmpty_cons, Bool.not_false, if_true, forEach]
    rw [← List.map_cons (f := JSVal.str)]
    rw [JS.bind_ok (forEachItem_lines (line :: rest) _ _ hdom)]
    have hdom2 : ({ w with
        dom := (w.dom.set "logContainer" { el with children := [] }).set "logContainer"
          { el with children := [] ++ (line :: rest).map logEntry } } : World).dom "logContainer"
        = some { el with children := [] ++ (line :: rest).map logEntry } := by
      simp [Dom.set]
    rw [modifyElement_bound hdom2]
    simp [Dom.set_set, renderedLogs]

/-- C6. For a non-empty array of log lines and a bound log panel, `updateLogs`
returns normally and gives the panel one entry per line, in order, whose class
is `log-entry` plus exactly one severity class chosen by first match:
`log-error` if the line contains `ERROR` or `错误`, else `log-warning` if it
contains `WARNING` or `警告`, else `log-debug` if it contains `DEBUG` or `调试`,
else `log-info`. A line containing both `ERROR` and `WARNING` is an error. -/
theorem updateLogs_classifies (w : World) (el : Element) (lines : List String)
    (hbound : w.dom "logContainer" = some el) (hne : lines ≠ []) :
    (updateLogs (.arr (lines.map JSVal.str)) w).2 = .ok () ∧
    ((updateLogs (.arr (lines.map JSVal.str)) w).1.dom "logContainer").map (·.children)
      = some (lines.map (fun line =>
          Node.element "div" ("log-entry " ++
            (if Occurs "ERROR" line ∨ Occurs "错误" line then "log-error"
             else if Occurs "WARNING" line ∨ Occurs "警告" line then "log-warning"
             else if Occurs "DEBUG" line ∨ Occurs "调试" line then "log-debug"
             else "log-info")) (textNodes line))) ∧
    (∀ line ∈ lines, Occurs "ERROR" line → Occurs "WARNING" line →
      Node.element "div" "log-entry log-error" (textNodes line) ∈
        (((updateLogs (.arr (lines.map JSVal.str)) w).1.dom "logContainer").map
          (·.children)).getD []) := by
  rw [updateLogs_lines lines w el hbound]
  have hr : renderedLogs lines = lines.map logEntry := by
    cases lines with
    | nil => exact absurd rfl hne
    | cons line rest => rfl
  refine ⟨rfl, ?_, ?_⟩
  · simp only [Dom.set, if_true, Option.map_some', hr]
    rfl
  · intro line hmem herr _
    simp only [Dom.set, if_true, Option.map_some', Option.getD_some, hr, List.mem_map]
    refine ⟨line, hmem, ?_⟩
    simp [logEntry, textElement, severityClass, herr]

theorem updateLogs_classifies_witness :
    ((updateLogs (.arr [.str "2024 ERROR after WARNING", .str "调试: ok", .str "started"])
        (samplePage "")).1.dom "logContainer").map (·.children)
      = some [Node.element "div" "log-entry log-error" [Node.text "2024 ERROR after WARNING"],
          Node.element "div" "log-entry log-debug" [Node.text "调试: ok"],
          Node.element "div" "log-entry log-info" [Node.text "started"]] :=
  (updateLogs_classifies (samplePage "") blankElement
    ["2024 ERROR after WARNING", "调试: ok", "started"] rfl (by simp)).2.1.trans (by rfl)

/-! ## Rendering a snapshot -/

theorem StatusSnapshot.getProp_current_task (s : StatusSnapshot) :
    s.toJS.getProp "current_task" = .ok s.current_task.read := by
  cases h : s.current_task <;>
    simp [StatusSnapshot.toJS, JSVal.getProp, JSVal.lookup, Field.entry, Field.read, h]

theorem StatusSnapshot.getProp_queue (s : StatusSnapshot) :
    s.toJS.getProp "queue" = .ok (.arr (s.queue.map TaskView.toJS)) := by
  cases h : s.current_task <;>
    simp [StatusSnapshot.toJS, JSVal.getProp, JSVal.lookup, Field.entry, h]

theorem StatusSnapshot.getProp_completed (s : StatusSnapshot) :
    s.toJS.getProp "completed" = .ok (.arr (s.completed.map TaskView.toJS)) := by
  cases h : s.current_task <;>
    simp [StatusSnapshot.toJS, JSVal.getProp, JSVal.lookup, Field.entry, h]

theorem StatusSnapshot.getProp_failed (s : StatusSnapshot) :
    s.toJS.getProp "failed" = .ok (.arr (s.failed.map TaskView.toJS)) := by
  cases h : s.current_task <;>
    simp [StatusSnapshot.toJS, JSVal.getProp, JSVal.lookup, Field.entry, h]

theorem StatusSnapshot.getProp_logs (s : StatusSnapshot) :
    s.toJS.getProp "logs" = .ok (.arr (s.logs.map JSVal.str)) := by
  cases h : s.current_task <;>
    simp [StatusSnapshot.toJS, JSVal.getProp, JSVal.lookup, Field.entry, h]

/-- Truthiness of a field as read from the object. -/
theorem Field.truthy_read (f : Field) : f.read.truthy = (f.truthyValue?).isSome := by
  cases f with
  | missing => rfl
  | null => rfl
  | present s => by_cases hs : s = "" <;> simp [Field.read, JSVal.truthy, Field.truthyValue?, hs]

theorem Field.toStr_read (f : Field) (name : String) (h : f.truthyValue? = some name) :
    f.read.toStr = .ok name := by
  cases f with
  | missing => simp [Field.truthyValue?] at h
  | null => simp [Field.truthyValue?] at h
  | present s =>
    by_cases hs : s = ""
    · simp [Field.truthyValue?, hs] at h
    · simp [Field.truthyValue?, hs] at h
      simp [Field.read, JSVal.toStr, h]

theorem renderCurrentTask_snapshot (s : StatusSnapshot) (w : World) (e1 e2 : Element)
    (h1 : w.dom "currentTask" = some e1) (h2 : w.dom "stopButton" = some e2) :
    renderCurrentTask s.toJS w =
      ({ w with
          dom := (w.dom.set "currentTask"
            { e1 with
              children := (snapshotView s).currentTaskContent
              className := (snapshotView s).currentTaskClass }).set "stopButton"
            { e2 with disabled := (snapshotView s).stopDisabled } }, .ok ()) := by
  unfold renderCurrentTask
  simp only [StatusSnapshot.getProp_current_task, JS.liftExcept_ok_bind, Field.truthy_read]
  cases hv : s.current_task.truthyValue? with
  | none =>
    simp [modifyElement, JS.bind_apply, h1, h2, Dom.set, Dom.set_set, snapshotView, hv]
  | some name =>
    simp [modifyElement, JS.bind_apply, h1, h2, Dom.set, Dom.set_set, snapshotView, hv,
      Field.toStr_read _ _ hv]

theorem renderClearFailed_snapshot (s : StatusSnapshot) (w : World) (e : Element)
    (h : w.dom "clearFailedBtn" = some e) :
    renderClearFailed s.toJS w =
      ({ w with
          dom := w.dom.set "clearFailedBtn"
            { e with disabled := (snapshotView s).clearFailedDisabled } }, .ok ()) := by
  unfold renderClearFailed
  simp only [StatusSnapshot.getProp_failed, JS.liftExcept_ok_bind]
  rw [JS.bind_ok (hasPositiveLength_arr _ _)]
  cases hf : s.failed with
  | nil => simp [modifyElement, h, snapshotView, hf]
  | cons t rest => simp [modifyElement, h, snapshotView, hf]

/-- The run of `updateStatus` on a page with all rendered elements bound, when
GET `/status/` answers with a well-typed snapshot. -/
theorem updateStatus_snapshot (s : StatusSnapshot) (code : Nat) (w : World)
    (hb : Bound w.dom) :
    updateStatus (jsonResponse code s.toJS) w =
      ({ w with dom := renderDom s w.dom, requests := w.requests ++ [statusRequest] },
        .ok ()) := by
  obtain ⟨e1, h1⟩ := Option.isSome_iff_exists.mp (hb "currentTask" (by decide))
  obtain ⟨e2, h2⟩ := Option.isSome_iff_exists.mp (hb "stopButton" (by decide))
  obtain ⟨e3, h3⟩ := Option.isSome_iff_exists.mp (hb "clearFailedBtn" (by decide))
  obtain ⟨e4, h4⟩ := Option.isSome_iff_exists.mp (hb "queueList" (by decide))
  obtain ⟨e5, h5⟩ := Option.isSome_iff_exists.mp (hb "completedList" (by decide))
  obtain ⟨e6, h6⟩ := Option.isSome_iff_exists.mp (hb "failedList" (by decide))
  obtain ⟨e7, h7⟩ := Option.isSome_iff_exists.mp (hb "logContainer" (by decide))
  unfold updateStatus JS.tryCatch jsonResponse
  simp only [JS.bind_apply, fetch, JS.liftExcept_apply]
  rw [renderCurrentTask_snapshot s
    { w with requests := w.requests ++ [⟨"GET", "/status/", [], none⟩] } e1 e2 h1 h2]
  simp only []
  rw [renderClearFailed_snapshot s _ e3 (by simp [Dom.set, h3])]
  simp only [StatusSnapshot.getProp_queue, StatusSnapshot.getProp_completed,
    StatusSnapshot.getProp_failed, StatusSnapshot.getProp_logs]
  rw [updateList_tasks "queueList" s.queue _ e4 (by simp [Dom.set, h4])]
  simp only []
  rw [updateList_tasks "completedList" s.completed _ e5 (by simp [Dom.set, h5])]
  simp only []
  rw [updateList_tasks "failedList" s.failed _ e6 (by simp [Dom.set, h6])]
  simp only []
  rw [updateLogs_lines s.logs _ e7 (by simp [Dom.set, h7])]
  simp only [statusRequest, Prod.mk.injEq, and_true]
  congr 1
  funext k
  simp only [Dom.set, renderDom, snapshotView]
  by_cases k1 : k = "logContainer"
  · subst k1
    simp [h7]
  by_cases k2 : k = "failedList"
  · subst k2
    simp [h6]
  by_cases k3 : k = "completedList"
  · subst k3
    simp [h5]
  by_cases k4 : k = "queueList"
  · subst k4
    simp [h4]
  by_cases k5 : k = "clearFailedBtn"
  · subst k5
    simp [h3]
  by_cases k6 : k = "stopButton"
  · subst k6
    simp [h2]
  by_cases k7 : k = "currentTask"
  · subst k7
    simp [h1]
  simp [k1, k2, k3, k4, k5, k6, k7]

theorem bound_samplePage (inputValue : String) : Bound (samplePage inputValue).dom := by
  intro id hid
  have hne : id ≠ "avidInput" := by
    intro h
    subst h
    exact absurd hid (by decide)
  simp [samplePage, hne, hid]

theorem bound_stalePage : Bound stalePage.dom := by
  intro id hid
  simp [stalePage, hid]

theorem bound_renderDom (s : StatusSnapshot) (d : Dom) (hb : Bound d) : Bound (renderDom s d) := by
  intro id hid
  have h := hb id hid
  unfold renderDom
  split_ifs <;> simp [Option.isSome_map', h]

theorem viewOf_renderDom (s : StatusSnapshot) (d : Dom) (hb : Bound d) :
    viewOf (renderDom s d) = some (snapshotView s) := by
  obtain ⟨e1, h1⟩ := Option.isSome_iff_exists.mp (hb "currentTask" (by decide))
  obtain ⟨e2, h2⟩ := Option.isSome_iff_exists.mp (hb "stopButton" (by decide))
  obtain ⟨e3, h3⟩ := Option.isSome_iff_exists.mp (hb "clearFailedBtn" (by decide))
  obtain ⟨e4, h4⟩ := Option.isSome_iff_exists.mp (hb "queueList" (by decide))
  obtain ⟨e5, h5⟩ := Option.isSome_iff_exists.mp (hb "completedList" (by decide))
  obtain ⟨e6, h6⟩ := Option.isSome_iff_exists.mp (hb "failedList" (by decide))
  obtain ⟨e7, h7⟩ := Option.isSome_iff_exists.mp (hb "logContainer" (by decide))
  simp [viewOf, renderDom, h1, h2, h3, h4, h5, h6, h7]

theorem renderDom_idem (s : StatusSnapshot) (d : Dom) :
    renderDom s (renderDom s d) = renderDom s d := by
  funext k
  unfold renderDom
  split_ifs <;> cases d k <;> simp

theorem textNodes_prefixed (pre name : String) (h : pre ≠ "") :
    textNodes (pre ++ name) = [Node.text (pre ++ name)] := by
  have hne : pre ++ name ≠ "" := by
    intro heq
    apply h
    have hd := congrArg String.data heq
    simp only [String.data_append] at hd
    have : pre.data = [] := (List.append_eq_nil.mp hd).1
    exact String.ext this
  simp [textNodes, hne]

/-- C3, as stated, fails: a snapshot whose `current_task` is present but is the
empty string leaves the stop button disabled and the indicator at `无任务`. -/
theorem updateStatus_empty_current_task_counterexample :
    ((updateStatus (jsonResponse 200 (StatusSnapshot.toJS ⟨.present "", [], [], [], []⟩))
        (samplePage "")).1.dom "stopButton").map (·.disabled) = some true ∧
    ((updateStatus (jsonResponse 200 (StatusSnapshot.toJS ⟨.present "", [], [], [], []⟩))
        (samplePage "")).1.dom "currentTask").map (·.children) = some [Node.text "无任务"] := by
  constructor
  · rfl
  · rfl

/-- C3, amended. For every snapshot returned by GET `/status/`, on a page with
the rendered elements bound, after `updateStatus` the stop button is enabled
if and only if `current_task` is a non-empty string; the indicator then reads
`当前任务: ` followed by the name, with class `current-task`; otherwise it reads
`无任务` with the empty class and the stop button is disabled. The clear-failed
button is enabled if and only if the `failed` array is non-empty. -/
theorem updateStatus_buttons (s : StatusSnapshot) (code : Nat) (w : World)
    (hb : Bound w.dom) :
    viewOf (updateStatus (jsonResponse code s.toJS) w).1.dom = some (snapshotView s) ∧
    ((snapshotView s).stopDisabled = false ↔
      ∃ name, s.current_task = .present name ∧ name ≠ "") ∧
    (∀ name, s.current_task = .present name → name ≠ "" →
      (snapshotView s).currentTaskContent = [Node.text ("当前任务: " ++ name)] ∧
      (snapshotView s).currentTaskClass = "current-task") ∧
    ((snapshotView s).stopDisabled = true →
      (snapshotView s).currentTaskContent = [Node.text "无任务"] ∧
      (snapshotView s).currentTaskClass = "") ∧
    ((snapshotView s).clearFailedDisabled = false ↔ s.failed ≠ []) := by
  rw [updateStatus_snapshot s code w hb]
  refine ⟨viewOf_renderDom s w.dom hb, ?_, ?_, ?_, ?_⟩
  · cases hc : s.current_task with
    | missing => simp [snapshotView, hc, Field.truthyValue?]
    | null => simp [snapshotView, hc, Field.truthyValue?]
    | present name =>
      by_cases hn : name = "" <;> simp [snapshotView, hc, Field.truthyValue?, hn]
  · intro name hc hn
    simp [snapshotView, hc, Field.truthyValue?, hn, textNodes_prefixed]
  · intro hd
    cases hv : s.current_task.truthyValue? with
    | none => simp [snapshotView, hv, textNodes]
    | some name => simp [snapshotView, hv] at hd
  · cases hf : s.failed <;> simp [snapshotView, hf]

theorem updateStatus_buttons_witness :
    viewOf (updateStatus (jsonResponse 200 sampleSnapshot.toJS) (samplePage "")).1.dom
      = some
        { currentTaskContent := [Node.text "无任务"]
          currentTaskClass := ""
          stopDisabled := true
          clearFailedDisabled := false
          queue := [Node.element "li" "task-item" [Node.text "无任务"]]
          completed := [Node.element "li" "task-item" [Node.text "无任务"]]
          failed := [Node.element "li" "task-item status-failed" [Node.text "ABC-123 - 404"]]
          logs := [Node.element "div" "log-entry log-info" [Node.text "暂无日志"]] } :=
  (updateStatus_buttons sampleSnapshot 200 (samplePage "") (bound_samplePage "")).1.trans
    (by rfl)

/-- C8. Rendering is a full replacement. For every snapshot and every two prior
pages with the rendered elements bound, `updateStatus` leaves the bound
elements in the same state, the one the snapshot determines; rendering the same
snapshot twice yields the same document as rendering it once; and `updateList`
called twice with the same container and array yields the same document, and
the same result, as calling it once. -/
theorem render_is_full_replacement (s : StatusSnapshot) (code : Nat) (w1 w2 : World)
    (hb1 : Bound w1.dom) (hb2 : Bound w2.dom) :
    viewOf (updateStatus (jsonResponse code s.toJS) w1).1.dom
      = viewOf (updateStatus (jsonResponse code s.toJS) w2).1.dom ∧
    viewOf (updateStatus (jsonResponse code s.toJS) w1).1.dom = some (snapshotView s) ∧
    (updateStatus (jsonResponse code s.toJS)
        (updateStatus (jsonResponse code s.toJS) w1).1).1.dom
      = (updateStatus (jsonResponse code s.toJS) w1).1.dom ∧
    (∀ (elementId : String) (items : List TaskView) (w : World),
      (updateList elementId (.arr (items.map TaskView.toJS))
          (updateList elementId (.arr (items.map TaskView.toJS)) w).1).1.dom
        = (updateList elementId (.arr (items.map TaskView.toJS)) w).1.dom ∧
      (updateList elementId (.arr (items.map TaskView.toJS))
          (updateList elementId (.arr (items.map TaskView.toJS)) w).1).2
        = (updateList elementId (.arr (items.map TaskView.toJS)) w).2) := by
  have hv1 := viewOf_renderDom s w1.dom hb1
  have hv2 := viewOf_renderDom s w2.dom hb2
  rw [updateStatus_snapshot s code w1 hb1, updateStatus_snapshot s code w2 hb2]
  refine ⟨hv1.trans hv2.symm, hv1, ?_, ?_⟩
  · rw [updateStatus_snapshot s code _ (bound_renderDom s w1.dom hb1)]
    exact renderDom_idem s w1.dom
  · intro elementId items w
    cases hdom : w.dom elementId with
    | none =>
      have hrun : updateList elementId (.arr (items.map TaskView.toJS)) w
          = (w, .error (typeError "Cannot set properties of null")) := by
        unfold updateList
        exact JS.bind_error (by simp [modifyElement, hdom])
      rw [hrun, hrun]
      exact ⟨rfl, rfl⟩
    | some el =>
      rw [updateList_tasks elementId items w el hdom]
      rw [updateList_tasks elementId items _ { el with children := renderedList items }
        (by simp [Dom.set])]
      simp [Dom.set_set]

theorem render_is_full_replacement_witness :
    viewOf (updateStatus (jsonResponse 200 sampleSnapshot.toJS) (samplePage "")).1.dom
      = viewOf (updateStatus (jsonResponse 200 sampleSnapshot.toJS) stalePage).1.dom :=
  (render_is_full_replacement sampleSnapshot 200 (samplePage "") stalePage (bound_samplePage "")
    bound_stalePage).1

end NASSAVx
